import Mathlib

/-
Verification development for the event-ingestion / fast-buffer / durable-sync
pipeline (producer.py, attendance_worker.py, training_worker.py,
db_sync_worker.py, collect_data.py, config.py, models.py).

Modelling conventions:
* the Redis fast buffer is an association list from key strings to lists of
  stored entries; `rpush`, `lpop` (as `popFront`), `llen`, `del` and `keys`
  mirror the Redis operations the code uses;
* a pickled blob is `Pickled α`: `good a` deserializes to `a`, `bad` raises
  `pickle.UnpicklingError` on `pickle.loads`;
* timestamps are opaque `Timestamp` values carrying the `%Y-%m-%d` date string
  (`strftime('%Y-%m-%d')` projects the `date` field; `isoformat` /
  `fromisoformat` round-trip the whole value) and a sequence number standing
  for the sub-day instant;
* the classifier (`predict_with_confidence`) is external per the spec: its
  result is passed to the consumer as an `Option (Int × Nat)` argument;
* confidence scores are only carried through, never computed with, so they are
  modelled as `Nat`;
* failure injection: operations that can raise in Python take explicit boolean
  failure flags or outcome schedules.
-/

/-- Opaque face sample payloads (numpy arrays in the source). -/
abbrev Face := Nat

/-- Recognition confidence, only carried through by the modelled code. -/
abbrev Confidence := Nat

/-- Abstract instant: the `%Y-%m-%d` date string plus a sequence number for
the remaining precision. `strftime('%Y-%m-%d')` is the `date` projection. -/
structure Timestamp where
  date : String
  seq : Nat
deriving DecidableEq

/-- A pickled blob stored in the fast buffer: `good a` deserializes to `a`,
`bad` raises on `pickle.loads` (the buffer readers wrap the load in a
generic `except` and skip the entry, so the exception class is not
distinguished there). -/
inductive Pickled (α : Type)
  | good (a : α)
  | bad
deriving DecidableEq

/-- A pickled message body delivered by the channel, as seen through
`pickle.loads` in a consumer callback: `ok a` deserializes to `a`;
`unpicklingError` raises `pickle.UnpicklingError` (the class the consumers
catch specifically); `otherLoadError` raises any other exception an
undeserializable body can produce (`EOFError` on a truncated or empty body,
`AttributeError`/`ImportError` on unresolvable globals, ...), which the
consumers do NOT catch specifically. -/
inductive WireMsg (α : Type)
  | ok (a : α)
  | unpicklingError
  | otherLoadError
deriving DecidableEq

/-- The Redis fast buffer: an association list from keys to stored lists. -/
abbrev Buffer (α : Type) := List (String × List α)

namespace Buffer

/-- Value of a key, `[]` when the key is absent (Redis: nil list). -/
def get : Buffer α → String → List α
  | [], _ => []
  | (k', v) :: rest, k => if k' = k then v else get rest k

/-- Replace the list stored at a key, creating the key when absent. -/
def set : Buffer α → String → List α → Buffer α
  | [], k, v => [(k, v)]
  | (k', v') :: rest, k, v => if k' = k then (k', v) :: rest else (k', v') :: set rest k v

/-- Redis RPUSH: append one element at the tail of the key's list. -/
def rpush (b : Buffer α) (k : String) (v : α) : Buffer α :=
  set b k (get b k ++ [v])

/-- Redis LPOP of one element, modelled as dropping the head of the list.
The code only pops keys it just enumerated, so key deletion on emptiness is
not modelled (an empty list is observationally the absent key for `get` and
`llen`). -/
def popFront (b : Buffer α) (k : String) : Buffer α :=
  set b k (get b k).tail

/-- Redis LLEN: length of the key's list, 0 when absent. -/
def llen (b : Buffer α) (k : String) : Nat :=
  (get b k).length

/-- Redis DEL: remove the key. -/
def del : Buffer α → String → Buffer α
  | [], _ => []
  | (k', v) :: rest, k => if k' = k then rest else (k', v) :: del rest k

/-- All key names currently present. -/
def keyList (b : Buffer α) : List String :=
  b.map Prod.fst

theorem get_set (b : Buffer α) (k k' : String) (v : List α) :
    get (set b k v) k' = if k' = k then v else get b k' := by
  induction b with
  | nil =>
    by_cases h : k' = k
    · subst h
      simp [get, set]
    · have h' : ¬ k = k' := fun e => h e.symm
      simp [get, set, h, h']
  | cons p rest ih =>
    obtain ⟨k₀, v₀⟩ := p
    by_cases h0 : k₀ = k
    · subst h0
      by_cases h : k' = k₀
      · subst h
        simp [get, set]
      · have h' : ¬ k₀ = k' := fun e => h e.symm
        simp [get, set, h, h']
    · by_cases h1 : k₀ = k'
      · subst h1
        have h2 : ¬ k₀ = k := h0
        simp [get, set, h0, fun e : k₀ = k => h0 e]
      · simp [get, set, h0, h1, ih]

theorem get_set_self (b : Buffer α) (k : String) (v : List α) :
    get (set b k v) k = v := by
  simp [get_set]

theorem get_set_ne (b : Buffer α) (k k' : String) (v : List α) (h : k' ≠ k) :
    get (set b k v) k' = get b k' := by
  simp [get_set, h]

theorem keyList_set_subset (b : Buffer α) (k : String) (v : List α) :
    ∀ k' ∈ keyList (set b k v), k' ∈ keyList b ∨ k' = k := by
  induction b with
  | nil =>
    intro k' hk'
    simp [keyList, set] at hk'
    exact Or.inr hk'
  | cons p rest ih =>
    obtain ⟨k₀, v₀⟩ := p
    intro k' hk'
    by_cases h0 : k₀ = k
    · subst h0
      simp [set, keyList] at hk' ⊢
      tauto
    · simp only [set, if_neg h0, keyList, List.map_cons, List.mem_cons] at hk' ⊢
      rcases hk' with h | h
      · exact Or.inl (Or.inl h)
      · rcases ih k' (by simpa [keyList] using h) with h2 | h2
        · exact Or.inl (Or.inr (by simpa [keyList] using h2))
        · exact Or.inr h2

end Buffer

-- Configuration constants from config.py.
namespace Config

/-- `Config.BATCH_SIZE = 50` in config.py. -/
def BATCH_SIZE : Nat := 50

end Config

/-
Attendance worker (attendance_worker.py).
-/

/-- Acknowledgement action taken on the channel for one delivery. -/
inductive AckAction
  | ack
  | nackRequeue
deriving DecidableEq

/-- The record dict built by `AttendanceWorker._store_attendance_redis`. -/
structure BufferedRecord where
  user_id : Int
  timestamp : Timestamp
  confidence : Confidence
  camera_type : String
deriving DecidableEq

/-- Deserialized attendance message payload: `data.get('timestamp')`,
`data.get('face')`, `data.get('camera_type', 'unknown')`. -/
structure AttPayload where
  timestamp : Timestamp
  face : Option Face
  camera_type : Option String
deriving DecidableEq

/-- Observable operations performed by the classification consumer while
handling one delivery, in execution order. -/
inductive ConsumerOp
  | rpushOk (key : String) (r : BufferedRecord)
  | rpushFailed (key : String)
  | ackOp
  | nackRequeueOp
deriving DecidableEq

/-- Fast-buffer key built in `_store_attendance_redis`:
`f"attendance:{timestamp.strftime('%Y-%m-%d')}:{camera_type}"`. -/
def attendanceKeyFor (ts : Timestamp) (cam : String) : String :=
  "attendance:" ++ ts.date ++ ":" ++ cam

/-- `AttendanceWorker._store_attendance_redis` (lines 67-97). The RPUSH
outcome is injected through `rpushFails`. The source wraps the body in
`try/except Exception` that only logs, so a failed write leaves the buffer
unchanged and RAISES NOTHING to the caller. Returns the resulting buffer and
the operation trace. -/
def storeAttendanceRedis (buf : Buffer (Pickled BufferedRecord)) (rpushFails : Bool)
    (uid : Int) (cam : String) (ts : Timestamp) (conf : Confidence) :
    Buffer (Pickled BufferedRecord) × List ConsumerOp :=
  let key := attendanceKeyFor ts cam
  if rpushFails then (buf, [ConsumerOp.rpushFailed key])
  else (Buffer.rpush buf key (Pickled.good ⟨uid, ts, conf, cam⟩),
        [ConsumerOp.rpushOk key ⟨uid, ts, conf, cam⟩])

/-- `AttendanceWorker._process_message` (lines 99-149). `msg` is the pickled
body: an `unpicklingError` body is caught by the dedicated
`except pickle.UnpicklingError` clause and acknowledged (lines 142-144),
while any other `pickle.loads` exception falls to the generic
`except Exception` clause, which negative-acknowledges with requeue
(lines 146-149). `prediction` is the external classifier result
(`predict_with_confidence`, `none` when no identity passes the threshold);
`rpushFails` injects the fast-buffer write outcome. Returns the buffer, the
acknowledgement decision, and the trace of channel/buffer operations. -/
def attendanceProcessMessage (buf : Buffer (Pickled BufferedRecord))
    (msg : WireMsg AttPayload) (prediction : Option (Int × Confidence))
    (rpushFails : Bool) :
    Buffer (Pickled BufferedRecord) × AckAction × List ConsumerOp :=
  match msg with
  | WireMsg.unpicklingError => (buf, AckAction.ack, [ConsumerOp.ackOp])
  | WireMsg.otherLoadError => (buf, AckAction.nackRequeue, [ConsumerOp.nackRequeueOp])
  | WireMsg.ok p =>
    match p.face with
    | none => (buf, AckAction.ack, [ConsumerOp.ackOp])
    | some _ =>
      match prediction with
      | some (uid, conf) =>
        let res := storeAttendanceRedis buf rpushFails uid (p.camera_type.getD "unknown")
          p.timestamp conf
        (res.1, AckAction.ack, res.2 ++ [ConsumerOp.ackOp])
      | none => (buf, AckAction.ack, [ConsumerOp.ackOp])

/-
Ingestion producer (producer.py).
-/

/-- `CameraProducer._publish_message` (lines 62-86) with injected attempt
outcomes: `firstFails` is the first `basic_publish` raising, `retryFails` the
retried publish after the single `self._setup()` reconnect. `Except.ok`
carries the number of publish attempts made; `Except.error` means the retry
raised out of the method. -/
def publishMessage (firstFails retryFails : Bool) : Except Unit Nat :=
  if firstFails then
    if retryFails then Except.error ()
    else Except.ok 2
  else Except.ok 1

/-- Number of publish attempts `_publish_message` makes for one message. -/
def publishAttemptCount (firstFails : Bool) : Nat :=
  if firstFails then 2 else 1

/-- Number of reconnects (`self._setup()` calls) `_publish_message` makes for
one message. -/
def publishReconnectCount (firstFails : Bool) : Nat :=
  if firstFails then 1 else 0

/-- `CameraProducer.camera_worker` (lines 103-185) restricted to its
publishing behaviour: `payloads` is the sequence of per-face messages the
loop would publish in order, and `sched i` gives the (first-attempt-fails,
retry-fails) outcome of the i-th publish call. A double failure raises out of
`_publish_message`; the worker's own `except Exception` catches it OUTSIDE
the frame loop, so the loop terminates and no later payload is published.
Returns the list of successfully published payloads. -/
def cameraWorkerGo (sched : Nat → Bool × Bool) : Nat → List String → List String
  | _, [] => []
  | i, m :: rest =>
    match publishMessage (sched i).1 (sched i).2 with
    | Except.ok _ => m :: cameraWorkerGo sched (i + 1) rest
    | Except.error _ => []

/-- Entry point pairing `camera_worker` with publish call index 0. -/
def cameraWorker (payloads : List String) (sched : Nat → Bool × Bool) : List String :=
  cameraWorkerGo sched 0 payloads

/-- Index of the first payload whose publish double-fails, scanning `n`
payloads starting at publish call `i`; equals `n` when none fails. The
published output of `camera_worker` is exactly the prefix up to this index. -/
def publishedCut (sched : Nat → Bool × Bool) : Nat → Nat → Nat
  | _, 0 => 0
  | i, n + 1 =>
    if (sched i).1 && (sched i).2 then 0
    else publishedCut sched (i + 1) n + 1

/-
Database sync worker (db_sync_worker.py) and its durable-store tables
(models.py).
-/

/-- Row of the `users` table (models.py `User`), restricted to the columns
the sync worker reads. -/
structure User where
  id : Int
  is_active : Bool
deriving DecidableEq

/-- Row of the `attendance_records` table (models.py `AttendanceRecord`) as
built by `_sync_key_to_database`; the autoincrement id is omitted. -/
structure AttendanceRecord where
  user_id : Int
  camera_type : String
  timestamp : Timestamp
  confidence : Confidence
deriving DecidableEq

/-- `pickle.loads` on one buffered blob; `bad` entries fail to deserialize
and are skipped with `continue` by the pop loop. -/
def pickleDecode : Pickled BufferedRecord → Option BufferedRecord
  | Pickled.good r => some r
  | Pickled.bad => none

/-- `AttendanceRecord(...)` construction in `_sync_key_to_database`:
`record['timestamp']` is parsed back with `datetime.fromisoformat` (an
identity round-trip in this model) and `camera_type` / `confidence` are read
off the record dict. -/
def recordToRow (r : BufferedRecord) : AttendanceRecord :=
  ⟨r.user_id, r.camera_type, r.timestamp, r.confidence⟩

/-- Primitive effects performed by one `_sync_key_to_database` call, in
execution order: destructive LPOPs of the key and the single bulk insert. -/
inductive SyncOp
  | pop (key : String) (entry : Pickled BufferedRecord)
  | bulkInsert (rows : List AttendanceRecord)
deriving DecidableEq

/-- Whether a sync operation is a buffer pop. -/
def SyncOp.isPop : SyncOp → Bool
  | SyncOp.pop _ _ => true
  | SyncOp.bulkInsert _ => false

/-- Whether a sync operation is a durable bulk insert. -/
def SyncOp.isInsert : SyncOp → Bool
  | SyncOp.pop _ _ => false
  | SyncOp.bulkInsert _ => true

/-- Result of `_sync_key_to_database`: final buffer, final table contents,
returned `synced_count`, and the ordered trace of primitive effects. -/
structure SyncKeyResult where
  buf : Buffer (Pickled BufferedRecord)
  db : List AttendanceRecord
  count : Nat
  trace : List SyncOp
deriving DecidableEq

/-- `DatabaseSyncWorker._sync_key_to_database` (lines 67-145):
pop every blob off the key (draining it before any database access), skip
undecodable blobs, batch-query the active users among the referenced ids,
drop records whose user is missing or inactive, and bulk-insert the rest in
one commit. Returns the result on the no-exception path. -/
def syncKey (buf : Buffer (Pickled BufferedRecord)) (users : List User)
    (db : List AttendanceRecord) (key : String) : SyncKeyResult :=
  let entries := Buffer.get buf key
  let buf' := Buffer.set buf key []
  let pops := entries.map (SyncOp.pop key)
  let records := entries.filterMap pickleDecode
  if records = [] then ⟨buf', db, 0, pops⟩
  else
    let userIds := records.map (fun r => r.user_id)
    let existingUserIds :=
      (users.filter (fun u => decide (u.id ∈ userIds) && u.is_active)).map (fun u => u.id)
    let kept := records.filter (fun r => decide (r.user_id ∈ existingUserIds))
    let rows := kept.map recordToRow
    if rows = [] then ⟨buf', db, 0, pops⟩
    else ⟨buf', db ++ rows, rows.length, pops ++ [SyncOp.bulkInsert rows]⟩

/-- State observed between primitive sync effects: the live buffer and the
rows this cycle has inserted so far. -/
structure ExecState where
  buf : Buffer (Pickled BufferedRecord)
  inserted : List AttendanceRecord
deriving DecidableEq

/-- Effect of one primitive sync operation on the observable state. -/
def applySyncOp (st : ExecState) : SyncOp → ExecState
  | SyncOp.pop k _ => ⟨Buffer.popFront st.buf k, st.inserted⟩
  | SyncOp.bulkInsert rows => ⟨st.buf, st.inserted ++ rows⟩

/-- Replay a list of primitive sync operations from a state. -/
def execOps (st : ExecState) (ops : List SyncOp) : ExecState :=
  ops.foldl applySyncOp st

/-- `redis_client.keys("attendance:*")` membership test, written over the
character list so that it evaluates inside the kernel. -/
def charListHasPre : List Char → List Char → Bool
  | [], _ => true
  | _ :: _, [] => false
  | c :: cs, d :: ds => decide (c = d) && charListHasPre cs ds

/-- `DatabaseSyncWorker._get_attendance_keys` (lines 57-65): every key
matching the `attendance:*` pattern. -/
def attendanceKeys (buf : Buffer (Pickled BufferedRecord)) : List String :=
  (Buffer.keyList buf).filter (fun k => charListHasPre "attendance:".data k.data)

/-- Result of a whole sync pass over an enumerated key list. -/
structure SyncAllResult where
  buf : Buffer (Pickled BufferedRecord)
  db : List AttendanceRecord
  count : Nat
  trace : List SyncOp
deriving DecidableEq

/-- The per-key loop of `_sync_all_keys` (lines 158-161), threading the
buffer and database through `syncKey` for each enumerated key. -/
def syncKeys (users : List User) :
    List String → Buffer (Pickled BufferedRecord) → List AttendanceRecord → SyncAllResult
  | [], buf, db => ⟨buf, db, 0, []⟩
  | k :: ks, buf, db =>
    let r1 := syncKey buf users db k
    let r2 := syncKeys users ks r1.buf r1.db
    ⟨r2.buf, r2.db, r1.count + r2.count, r1.trace ++ r2.trace⟩

/-- `DatabaseSyncWorker._sync_all_keys` (lines 147-168): enumerate the
attendance keys once, then sync each in turn. -/
def syncAllKeys (buf : Buffer (Pickled BufferedRecord)) (users : List User)
    (db : List AttendanceRecord) : SyncAllResult :=
  syncKeys users (attendanceKeys buf) buf db

/-
Retention cleanup (db_sync_worker.py `_cleanup_old_keys`, lines 170-196).
-/

/-- Split a character list on a separator character, mirroring Python
`str.split` with a single-character separator. -/
def splitOnChar (sep : Char) : List Char → List (List Char)
  | [] => [[]]
  | c :: cs =>
    let r := splitOnChar sep cs
    if c = sep then [] :: r
    else
      match r with
      | [] => [[c]]
      | h :: t => (c :: h) :: t

/-- Value of one decimal digit character. -/
def digitVal (c : Char) : Option Nat :=
  if c.isDigit then some (c.toNat - '0'.toNat) else none

/-- Accumulating decimal parse of a digit list. -/
def digitsToNatAux : Nat → List Char → Option Nat
  | acc, [] => some acc
  | acc, c :: cs =>
    match digitVal c with
    | some d => digitsToNatAux (acc * 10 + d) cs
    | none => none

/-- Parse a non-empty all-digit character list as a natural number. -/
def digitsToNat : List Char → Option Nat
  | [] => none
  | c :: cs => digitsToNatAux 0 (c :: cs)

/-- `datetime.strptime(s, '%Y-%m-%d')` modelled as an order-preserving
numeric date code `y*10000 + m*100 + d`; out-of-range or non-numeric parts
raise `ValueError`, i.e. return `none`. -/
def parseDateNum (s : String) : Option Nat :=
  match splitOnChar '-' s.data with
  | [ys, ms, ds] =>
    match digitsToNat ys, digitsToNat ms, digitsToNat ds with
    | some y, some m, some d =>
      if 1 ≤ m && m ≤ 12 && 1 ≤ d && d ≤ 31 then some (y * 10000 + m * 100 + d)
      else none
    | _, _, _ => none
  | _ => none

/-- Date encoded in a buffer key: `parts = key.split(':')`, then
`datetime.strptime(parts[1], '%Y-%m-%d')` when `len(parts) >= 2`. -/
def keyDate (key : String) : Option Nat :=
  match (splitOnChar ':' key.data).map (fun cs => String.mk cs) with
  | _ :: ds :: _ => parseDateNum ds
  | _ => none

/-- The sequential body of `_cleanup_old_keys`: for each enumerated key,
parse its date; when the date is older than the cutoff AND `llen` is 0,
delete the key. `cutoff` abstracts `datetime.now() - timedelta(days=days)`
under the same numeric date code. -/
def cleanupOldKeys (buf : Buffer (Pickled BufferedRecord)) (cutoff : Nat) :
    Buffer (Pickled BufferedRecord) :=
  (attendanceKeys buf).foldl
    (fun b key =>
      match keyDate key with
      | some d =>
        if d < cutoff then
          if Buffer.llen b key = 0 then Buffer.del b key else b
        else b
      | none => b)
    buf

/-- Atomic steps of the cleanup pass for one key, interleavable with RPUSH
appends from the classification consumer: `checkLen` is the
`self.redis_client.llen(key) == 0` read, `doDelete` the subsequent
`self.redis_client.delete(key)` call guarded by the saved check, and
`append v` a concurrent `rpush` to the same key. -/
inductive CleanupAct
  | checkLen
  | doDelete
  | append (v : Pickled BufferedRecord)
deriving DecidableEq

/-- State of the interleaved cleanup machine. `savedLen` is the result of
the emptiness check (the code branches on it when deleting);
`deletedNonEmpty` is an observer flag recording that a delete fired while
the key's list was non-empty at that very moment. -/
structure CleanupState where
  buf : Buffer (Pickled BufferedRecord)
  savedLen : Option Nat
  deletedNonEmpty : Bool
deriving DecidableEq

/-- One atomic step of the interleaved cleanup machine for `key`. The
`doDelete` step replays the source guards: the key's parsed date must be
older than `cutoff` and the PREVIOUSLY READ length must be 0. -/
def cleanupStep (cutoff : Nat) (key : String) (st : CleanupState) :
    CleanupAct → CleanupState
  | CleanupAct.checkLen => ⟨st.buf, some (Buffer.llen st.buf key), st.deletedNonEmpty⟩
  | CleanupAct.doDelete =>
    match keyDate key with
    | some d =>
      if d < cutoff then
        if st.savedLen = some 0 then
          ⟨Buffer.del st.buf key, st.savedLen,
           st.deletedNonEmpty || decide (0 < Buffer.llen st.buf key)⟩
        else st
      else st
    | none => st
  | CleanupAct.append v => ⟨Buffer.rpush st.buf key v, st.savedLen, st.deletedNonEmpty⟩

/-- Run an interleaving of cleanup steps and concurrent appends for one key
from an initial buffer. -/
def cleanupRun (cutoff : Nat) (key : String) (acts : List CleanupAct)
    (buf0 : Buffer (Pickled BufferedRecord)) : CleanupState :=
  acts.foldl (cleanupStep cutoff key) ⟨buf0, none, false⟩

/-
Training worker (training_worker.py) and the trainer (collect_data.py),
with the `training_sessions` table (models.py `TrainingSession`).
-/

/-- Deserialized enrollment message payload: `payload.get('face')`,
`payload.get('user_id', 1)`, `payload.get('timestamp', datetime.now())`. -/
structure TrainPayload where
  face : Option Face
  user_id : Option Int
  timestamp : Option Timestamp
deriving DecidableEq

/-- Batch element built in `TrainingWorker._process_message` (always carries
a face, since face-less messages are acknowledged and skipped earlier). -/
structure TrainSample where
  face : Face
  user_id : Int
  timestamp : Timestamp
deriving DecidableEq

/-- Row of the `training_sessions` table (models.py `TrainingSession`);
`completed_at` is set on completion, `started_at` orders the sessions. -/
structure TrainingSession where
  id : Nat
  user_id : Int
  frames_count : Nat
  started_at : Timestamp
  completed_at : Option Timestamp
  status : String
deriving DecidableEq

/-- In-process state of the enrollment consumer: the in-memory batch, the
fast buffer holding pickled samples, and the `training_sessions` table. -/
structure TWState where
  batch : List TrainSample
  buf : Buffer (Pickled TrainSample)
  sessions : List TrainingSession
deriving DecidableEq

/-- Observable effects of a batch flush, in execution order. -/
inductive TWOp
  | pushSample (key : String) (s : TrainSample)
  | createRun (run : TrainingSession)
  | clearBatch
deriving DecidableEq

/-- Fast-buffer batch key built in `_push_batch_to_redis`:
`f"train_batch:{datetime.now().strftime('%Y-%m-%d')}:{user_id}"`. -/
def trainBatchKeyFor (today : String) (uid : Int) : String :=
  "train_batch:" ++ today ++ ":" ++ toString uid

/-- `TrainingWorker._push_batch_to_redis` (lines 70-106) on its
no-exception path: push every batch sample to the batch key, create one
TrainingSession row with `status='pending'` and
`frames_count=len(self.batch)`, then clear the batch. `today` and `now`
abstract the two `datetime.now()` reads. Returns the new state and the
ordered effect trace. -/
def pushBatchToRedis (st : TWState) (uid : Int) (today : String) (now : Timestamp) :
    TWState × List TWOp :=
  if st.batch = [] then (st, [])
  else
    let key := trainBatchKeyFor today uid
    let buf' := st.batch.foldl (fun b s => Buffer.rpush b key (Pickled.good s)) st.buf
    let run : TrainingSession :=
      ⟨st.sessions.length + 1, uid, st.batch.length, now, none, "pending"⟩
    (⟨[], buf', st.sessions ++ [run]⟩,
     st.batch.map (TWOp.pushSample key) ++ [TWOp.createRun run, TWOp.clearBatch])

/-- `TrainingWorker._process_message` (lines 108-159): a body raising
`pickle.UnpicklingError` is acknowledged and dropped (lines 153-155), a body
raising any other `pickle.loads` exception falls to the generic
`except Exception` clause and is negative-acknowledged with requeue
(lines 157-159); face-less payloads are acknowledged and skipped; otherwise
the sample is appended to the in-memory batch with
`user_id = payload.get('user_id', 1)`, and when the batch reaches
`config.BATCH_SIZE` it is flushed via `_push_batch_to_redis(user_id)` with
the CURRENT message's user id. The message is acknowledged afterwards. -/
def trainingProcessMessage (st : TWState) (msg : WireMsg TrainPayload)
    (today : String) (now : Timestamp) : TWState × AckAction × List TWOp :=
  match msg with
  | WireMsg.unpicklingError => (st, AckAction.ack, [])
  | WireMsg.otherLoadError => (st, AckAction.nackRequeue, [])
  | WireMsg.ok p =>
    match p.face with
    | none => (st, AckAction.ack, [])
    | some f =>
      let sample : TrainSample := ⟨f, p.user_id.getD 1, p.timestamp.getD now⟩
      let st1 : TWState := ⟨st.batch ++ [sample], st.buf, st.sessions⟩
      if Config.BATCH_SIZE ≤ st1.batch.length then
        let res := pushBatchToRedis st1 (p.user_id.getD 1) today now
        (res.1, AckAction.ack, res.2)
      else (st1, AckAction.ack, [])

/-
Trainer (collect_data.py `ModelTrainer`).
-/

/-- Value space of the SQL comparison built by
`filter_by(user_id=..., status=['pending', 'processing'])` in
`_update_training_session`: the status column holds strings, while the
filter's right-hand side is the Python LIST `['pending', 'processing']`
(the source uses `filter_by` equality, not `in_`). A string column value
never equals the list value, so the filter matches no row; under a real
driver the same call raises and is swallowed by the surrounding
`except Exception`, which likewise leaves every row untouched. -/
inductive SqlVal
  | str (s : String)
  | strList (l : List String)
deriving DecidableEq

/-- The right-hand side of the status comparison in the source:
`status=['pending', 'processing']`. -/
def statusFilterValue : SqlVal :=
  SqlVal.strList ["pending", "processing"]

/-- The row predicate generated by
`filter_by(user_id=user_id, status=['pending', 'processing'])`. -/
def sessionFilterMatch (uid : Int) (t : TrainingSession) : Bool :=
  decide (t.user_id = uid) && decide (SqlVal.str t.status = statusFilterValue)

/-- Insert sorted by descending `started_at` (by the `seq` component of the
abstract instants). -/
def insertDesc (s : TrainingSession) : List TrainingSession → List TrainingSession
  | [] => [s]
  | t :: ts =>
    if t.started_at.seq ≤ s.started_at.seq then s :: t :: ts
    else t :: insertDesc s ts

/-- `order_by(TrainingSession.started_at.desc())`. -/
def orderByStartedDesc (l : List TrainingSession) : List TrainingSession :=
  l.foldr insertDesc []

/-- `ModelTrainer._update_training_session` (lines 193-217): find the most
recent session matching the `filter_by` predicate; when found, set its
status (plus `completed_at` and `frames_count` when given) and return its
id; otherwise leave the table unchanged and return `None`. -/
def updateTrainingSession (sessions : List TrainingSession) (uid : Int)
    (newStatus : String) (now : Timestamp) (framesCount : Option Nat) :
    List TrainingSession × Option Nat :=
  match (orderByStartedDesc sessions).find? (sessionFilterMatch uid) with
  | some t =>
    (sessions.map (fun s =>
      if s.id = t.id then
        { s with
          status := newStatus
          completed_at := if newStatus = "completed" then some now else s.completed_at
          frames_count := framesCount.getD s.frames_count }
      else s),
     some t.id)
  | none => (sessions, none)

/-- `int(key_parts[2])` for a `train_batch:{date}:{uid}` key, defaulting to
1 when the key has fewer than three parts (`int()` on a non-numeric part
raises; such keys are outside the trainer's own key scheme and are not
modelled further). -/
def parseKeyUid (key : String) : Int :=
  match splitOnChar ':' key.data with
  | _ :: _ :: us :: _ =>
    (match us with
     | '-' :: rest => (digitsToNat rest).map (fun n => -(n : Int))
     | l => (digitsToNat l).map (fun n => (n : Int))).getD 1
  | _ => 1

/-- Result of processing one batch key in `ModelTrainer.train_from_redis`. -/
structure TrainerKeyResult where
  buf : Buffer (Pickled TrainSample)
  sessions : List TrainingSession
  trainedFaces : List Face
deriving DecidableEq

/-- One iteration of the key loop in `ModelTrainer.train_from_redis`
(lines 127-184): transition the session to `processing`, drain the batch
key (skipping undecodable frames), and on non-empty faces update the model
(external) and transition to `completed` with the actual face count, else
transition to `failed`. -/
def trainerProcessKey (buf : Buffer (Pickled TrainSample))
    (sessions : List TrainingSession) (key : String) (now : Timestamp) :
    TrainerKeyResult :=
  let uid := parseKeyUid key
  let s1 := (updateTrainingSession sessions uid "processing" now none).1
  let entries := Buffer.get buf key
  let buf' := Buffer.set buf key []
  let faces := entries.filterMap (fun e =>
    match e with
    | Pickled.good s => some s.face
    | Pickled.bad => none)
  if faces = [] then
    ⟨buf', (updateTrainingSession s1 uid "failed" now none).1, faces⟩
  else
    ⟨buf', (updateTrainingSession s1 uid "completed" now (some faces.length)).1, faces⟩

/-
Concrete example inputs used by witnesses and counterexamples.
-/

/-- Fast buffer with two live event records for the key
`attendance:2024-01-01:cam1`. -/
def exSyncBuf : Buffer (Pickled BufferedRecord) :=
  [("attendance:2024-01-01:cam1",
    [Pickled.good ⟨7, ⟨"2024-01-01", 0⟩, 12, "cam1"⟩,
     Pickled.good ⟨9, ⟨"2024-01-01", 1⟩, 5, "cam1"⟩])]

/-- Users table with two active identities. -/
def exSyncUsers : List User := [⟨7, true⟩, ⟨9, true⟩]

/-- Fast buffer with one record for identity 7 on `cam1`. -/
def exActiveBuf : Buffer (Pickled BufferedRecord) :=
  [("attendance:2024-01-01:cam1", [Pickled.good ⟨7, ⟨"2024-01-01", 2⟩, 33, "cam1"⟩])]

/-- The event row the sync of `exActiveBuf` inserts. -/
def exActiveRow : AttendanceRecord := ⟨7, "cam1", ⟨"2024-01-01", 2⟩, 33⟩

/-- Fast buffer holding a single already-drained attendance key. -/
def exEmptyKeyBuf : Buffer (Pickled BufferedRecord) :=
  [("attendance:2024-01-02:cam2", [])]

/-- Enrollment-consumer state one sample short of the flush threshold, with
every batched sample belonging to identity 1. -/
def exFlushState : TWState :=
  ⟨List.replicate 49 ⟨5, 1, ⟨"2024-01-01", 0⟩⟩, [], []⟩

/-- Enrollment-consumer state one sample short of the flush threshold for
identity 3. -/
def exFlushState3 : TWState :=
  ⟨List.replicate 49 ⟨6, 3, ⟨"2024-02-02", 0⟩⟩, [], []⟩

/-- A stale attendance key that has been fully synced (empty list). -/
def exStaleBuf : Buffer (Pickled BufferedRecord) :=
  [("attendance:2020-01-01:cam1", [])]

/-- A live record appended concurrently while cleanup runs. -/
def exStaleRec : BufferedRecord := ⟨7, ⟨"2020-01-01", 0⟩, 12, "cam1"⟩

/-- Publish schedule whose first publish call fails on both attempts and
whose later calls all succeed first try. -/
def exPubSched : Nat → Bool × Bool := fun i => if i = 0 then (true, true) else (false, false)

/-
Helper lemmas.
-/

theorem sessionFilterMatch_false (uid : Int) (t : TrainingSession) :
    sessionFilterMatch uid t = false := by
  simp [sessionFilterMatch, statusFilterValue]

theorem updateTrainingSession_noop (sessions : List TrainingSession) (uid : Int)
    (newStatus : String) (now : Timestamp) (framesCount : Option Nat) :
    updateTrainingSession sessions uid newStatus now framesCount = (sessions, none) := by
  unfold updateTrainingSession
  have h : (orderByStartedDesc sessions).find? (sessionFilterMatch uid) = none := by
    apply List.find?_eq_none.mpr
    intro t _
    simp [sessionFilterMatch_false]
  rw [h]

theorem cameraWorkerGo_take (sched : Nat → Bool × Bool) (payloads : List String) :
    ∀ i : Nat, cameraWorkerGo sched i payloads = payloads.take (publishedCut sched i payloads.length) := by
  induction payloads with
  | nil => intro i; rfl
  | cons m rest ih =>
    intro i
    cases hf : (sched i).1 <;> cases hr : (sched i).2 <;>
      simp [cameraWorkerGo, publishMessage, publishedCut, hf, hr, ih]

theorem syncKey_buf (buf : Buffer (Pickled BufferedRecord)) (users : List User)
    (db : List AttendanceRecord) (key : String) :
    (syncKey buf users db key).buf = Buffer.set buf key [] := by
  unfold syncKey
  dsimp only
  split
  · rfl
  · split
    · rfl
    · rfl

theorem syncKey_trace_shape (buf : Buffer (Pickled BufferedRecord)) (users : List User)
    (db : List AttendanceRecord) (key : String) :
    (syncKey buf users db key).trace = (Buffer.get buf key).map (SyncOp.pop key)
    ∨ ∃ rows, (syncKey buf users db key).trace
        = (Buffer.get buf key).map (SyncOp.pop key) ++ [SyncOp.bulkInsert rows] := by
  unfold syncKey
  dsimp only
  split
  · exact Or.inl rfl
  · split
    · exact Or.inl rfl
    · exact Or.inr ⟨_, rfl⟩

theorem syncKey_empty (buf : Buffer (Pickled BufferedRecord)) (users : List User)
    (db : List AttendanceRecord) (key : String) (h : Buffer.get buf key = []) :
    syncKey buf users db key = ⟨Buffer.set buf key [], db, 0, []⟩ := by
  simp [syncKey, h]

theorem execOps_append (st : ExecState) (ops1 ops2 : List SyncOp) :
    execOps st (ops1 ++ ops2) = execOps (execOps st ops1) ops2 := by
  simp [execOps, List.foldl_append]

theorem execOps_allpops_inserted :
    ∀ (l : List SyncOp) (st : ExecState), (∀ o ∈ l, SyncOp.isPop o = true) →
      (execOps st l).inserted = st.inserted := by
  intro l
  induction l with
  | nil => intro st _; rfl
  | cons o t ih =>
    intro st h
    cases o with
    | pop k e => exact ih (applySyncOp st (SyncOp.pop k e)) (fun o ho => h o (List.mem_cons_of_mem _ ho))
    | bulkInsert rows => simpa [SyncOp.isPop] using h _ (List.mem_cons_self _ _)

theorem execOps_pops_drain (k : String) :
    ∀ (es : List (Pickled BufferedRecord)) (st : ExecState), Buffer.get st.buf k = es →
      Buffer.get (execOps st (es.map (SyncOp.pop k))).buf k = [] := by
  intro es
  induction es with
  | nil =>
    intro st h
    simpa [execOps] using h
  | cons e t ih =>
    intro st h
    refine ih (applySyncOp st (SyncOp.pop k e)) ?_
    show Buffer.get (Buffer.popFront st.buf k) k = t
    simp [Buffer.popFront, Buffer.get_set_self, h]

theorem syncKey_db_mem (buf : Buffer (Pickled BufferedRecord)) (users : List User)
    (db : List AttendanceRecord) (key : String) (e : AttendanceRecord) :
    e ∈ (syncKey buf users db key).db →
    e ∈ db ∨ ∃ u, u ∈ users ∧ u.id = e.user_id ∧ u.is_active = true := by
  unfold syncKey
  dsimp only
  split
  · exact fun h => Or.inl h
  · split
    · exact fun h => Or.inl h
    · intro h
      rcases List.mem_append.mp h with h | h
      · exact Or.inl h
      · rcases List.mem_map.mp h with ⟨r, hr, rfl⟩
        have hkept := List.mem_filter.mp hr
        have hid : r.user_id ∈
            ((users.filter (fun u =>
              decide (u.id ∈ ((Buffer.get buf key).filterMap pickleDecode).map
                (fun r => r.user_id)) && u.is_active)).map (fun u => u.id)) := by
          simpa using hkept.2
        rcases List.mem_map.mp hid with ⟨u, hu, huid⟩
        have hu2 := List.mem_filter.mp hu
        refine Or.inr ⟨u, hu2.1, ?_, ?_⟩
        · simpa [recordToRow] using huid
        · have hact := hu2.2
          simp only [Bool.and_eq_true] at hact
          exact hact.2

theorem syncKeys_db_mem (users : List User) :
    ∀ (ks : List String) (buf : Buffer (Pickled BufferedRecord))
      (db : List AttendanceRecord) (e : AttendanceRecord),
      e ∈ (syncKeys users ks buf db).db →
      e ∈ db ∨ ∃ u, u ∈ users ∧ u.id = e.user_id ∧ u.is_active = true := by
  intro ks
  induction ks with
  | nil => intro buf db e h; exact Or.inl h
  | cons k t ih =>
    intro buf db e h
    rcases ih (syncKey buf users db k).buf (syncKey buf users db k).db e h with h2 | h2
    · exact syncKey_db_mem buf users db k e h2
    · exact Or.inr h2

theorem syncKeys_get (users : List User) :
    ∀ (ks : List String) (buf : Buffer (Pickled BufferedRecord))
      (db : List AttendanceRecord) (k' : String),
      Buffer.get (syncKeys users ks buf db).buf k'
        = if k' ∈ ks then [] else Buffer.get buf k' := by
  intro ks
  induction ks with
  | nil => intro buf db k'; simp [syncKeys]
  | cons k t ih =>
    intro buf db k'
    show Buffer.get (syncKeys users t (syncKey buf users db k).buf (syncKey buf users db k).db).buf k' = _
    rw [ih]
    by_cases ht : k' ∈ t
    · simp [ht]
    · by_cases hk : k' = k
      · subst hk
        simp [ht, syncKey_buf, Buffer.get_set]
      · simp [ht, hk, syncKey_buf, Buffer.get_set]

theorem syncKeys_keyList (users : List User) :
    ∀ (ks : List String) (buf : Buffer (Pickled BufferedRecord))
      (db : List AttendanceRecord) (k' : String),
      k' ∈ Buffer.keyList (syncKeys users ks buf db).buf →
      k' ∈ Buffer.keyList buf ∨ k' ∈ ks := by
  intro ks
  induction ks with
  | nil => intro buf db k' h; exact Or.inl h
  | cons k t ih =>
    intro buf db k' h
    rcases ih (syncKey buf users db k).buf (syncKey buf users db k).db k' h with h2 | h2
    · rw [syncKey_buf] at h2
      rcases Buffer.keyList_set_subset buf k [] k' h2 with h3 | h3
      · exact Or.inl h3
      · exact Or.inr (by simp [h3])
    · exact Or.inr (List.mem_cons_of_mem _ h2)

theorem syncKeys_db_empty (users : List User) :
    ∀ (ks : List String) (buf : Buffer (Pickled BufferedRecord))
      (db : List AttendanceRecord), (∀ k ∈ ks, Buffer.get buf k = []) →
      (syncKeys users ks buf db).db = db ∧ (syncKeys users ks buf db).count = 0
        ∧ (syncKeys users ks buf db).trace = [] := by
  intro ks
  induction ks with
  | nil => intro buf db _; exact ⟨rfl, rfl, rfl⟩
  | cons k t ih =>
    intro buf db h
    have hk := h k (List.mem_cons_self _ _)
    have ht : ∀ k' ∈ t, Buffer.get (Buffer.set buf k []) k' = [] := by
      intro k' hk'
      rw [Buffer.get_set]
      by_cases hkk : k' = k
      · simp [hkk]
      · simp only [if_neg hkk]
        exact h k' (List.mem_cons_of_mem _ hk')
    have hrec := ih (Buffer.set buf k []) db ht
    simp only [syncKeys, syncKey_empty buf users db k hk]
    exact ⟨hrec.1, by simp [hrec.2.1], by simp [hrec.2.2]⟩

theorem syncAllKeys_drained (buf : Buffer (Pickled BufferedRecord)) (users : List User)
    (db : List AttendanceRecord) :
    ∀ k' ∈ attendanceKeys (syncAllKeys buf users db).buf,
      Buffer.get (syncAllKeys buf users db).buf k' = [] := by
  intro k' hk'
  have hmem : k' ∈ Buffer.keyList (syncAllKeys buf users db).buf
      ∧ charListHasPre "attendance:".data k'.data = true := by
    simpa [attendanceKeys, List.mem_filter] using hk'
  have h2 := syncKeys_keyList users (attendanceKeys buf) buf db k' hmem.1
  have h3 : k' ∈ attendanceKeys buf := by
    rcases h2 with h2 | h2
    · exact List.mem_filter.mpr ⟨h2, hmem.2⟩
    · exact h2
  show Buffer.get (syncKeys users (attendanceKeys buf) buf db).buf k' = []
  rw [syncKeys_get]
  simp [h3]

/-
Claim theorems.
-/

/-- C1, counterexample: a live message whose sample the classifier matches
(identity 7) hits a failing fast-buffer write; `_store_attendance_redis`
catches the exception internally, so `_process_message` still acknowledges
the message, no negative-acknowledge happens, and the buffer holds no
record — the claim's failure branch (nack with requeue, no ack) is false on
the code. -/
theorem attendance_ack_despite_buffer_write_failure :
    attendanceProcessMessage [] (WireMsg.ok ⟨⟨"2024-01-01", 0⟩, some 5, some "cam1"⟩)
        (some (7, 12)) true
      = ([], AckAction.ack,
         [ConsumerOp.rpushFailed "attendance:2024-01-01:cam1", ConsumerOp.ackOp]) := by
  decide

/-- C1, amended: for every matched live message, the consumer acknowledges
regardless of the fast-buffer write outcome. When the RPUSH succeeds the
acknowledge follows the successful append; when it fails the exception is
caught and logged inside `_store_attendance_redis`, the buffer is left
unchanged (the record is lost) and the message is STILL acknowledged — it is
never negative-acknowledged or requeued. -/
theorem attendance_ack_follows_write_outcome (buf : Buffer (Pickled BufferedRecord))
    (ts : Timestamp) (f : Face) (cam : Option String) (uid : Int) (conf : Confidence) :
    attendanceProcessMessage buf (WireMsg.ok ⟨ts, some f, cam⟩) (some (uid, conf)) false
      = (Buffer.rpush buf (attendanceKeyFor ts (cam.getD "unknown"))
           (Pickled.good ⟨uid, ts, conf, cam.getD "unknown"⟩),
         AckAction.ack,
         [ConsumerOp.rpushOk (attendanceKeyFor ts (cam.getD "unknown"))
            ⟨uid, ts, conf, cam.getD "unknown"⟩,
          ConsumerOp.ackOp])
    ∧ attendanceProcessMessage buf (WireMsg.ok ⟨ts, some f, cam⟩) (some (uid, conf)) true
      = (buf, AckAction.ack,
         [ConsumerOp.rpushFailed (attendanceKeyFor ts (cam.getD "unknown")),
          ConsumerOp.ackOp]) :=
  ⟨rfl, rfl⟩

/-- C9, counterexample: an undeserializable payload whose `pickle.loads`
raises an exception other than `pickle.UnpicklingError` (e.g. `EOFError` on
an empty or truncated body) bypasses the dedicated handler and falls into
the generic `except Exception` clause of both consumers, which
negative-acknowledges with requeue — so this malformed message IS requeued
(and will be redelivered and requeued forever), refuting "acknowledges the
message ... and never negative-acknowledges or requeues it" for every
undeserializable payload. -/
theorem other_deserialize_error_nack_requeued :
    attendanceProcessMessage [] WireMsg.otherLoadError none false
      = ([], AckAction.nackRequeue, [ConsumerOp.nackRequeueOp])
    ∧ trainingProcessMessage ⟨[], [], []⟩ WireMsg.otherLoadError
        "2024-01-01" ⟨"2024-01-01", 0⟩
      = (⟨[], [], []⟩, AckAction.nackRequeue, []) :=
  ⟨rfl, rfl⟩

/-- C9, amended: a message whose payload raises `pickle.UnpicklingError` is
acknowledged (dropped) by both consumers, leaves their state unchanged and
is never requeued; but a payload whose deserialization raises any OTHER
exception (`EOFError`, `AttributeError`, `ImportError`, ...) reaches the
generic handler and is negative-acknowledged with requeue, so only the
`UnpicklingError` class of malformed messages is delivered at most once —
the rest are retried indefinitely. -/
theorem unpickling_error_acked_other_errors_requeued
    (buf : Buffer (Pickled BufferedRecord)) (prediction : Option (Int × Confidence))
    (rpushFails : Bool) (st : TWState) (today : String) (now : Timestamp) :
    (attendanceProcessMessage buf WireMsg.unpicklingError prediction rpushFails
        = (buf, AckAction.ack, [ConsumerOp.ackOp])
      ∧ trainingProcessMessage st WireMsg.unpicklingError today now
          = (st, AckAction.ack, []))
    ∧ (attendanceProcessMessage buf WireMsg.otherLoadError prediction rpushFails
        = (buf, AckAction.nackRequeue, [ConsumerOp.nackRequeueOp])
      ∧ trainingProcessMessage st WireMsg.otherLoadError today now
          = (st, AckAction.nackRequeue, [])) :=
  ⟨⟨rfl, rfl⟩, ⟨rfl, rfl⟩⟩

/-- C10: a well-formed enrollment message carrying a face but no `user_id`
field is not rejected: the consumer substitutes the default identity 1 and
appends the sample to the in-memory batch under identity 1, then
acknowledges (stated below the flush threshold so the batch itself is
observable in the resulting state). -/
theorem missing_user_id_defaults_to_one (st : TWState) (f : Face)
    (pt : Option Timestamp) (today : String) (now : Timestamp)
    (h : st.batch.length + 1 < Config.BATCH_SIZE) :
    trainingProcessMessage st (WireMsg.ok ⟨some f, none, pt⟩) today now
      = (⟨st.batch ++ [⟨f, 1, pt.getD now⟩], st.buf, st.sessions⟩, AckAction.ack, []) := by
  have hn : ¬ Config.BATCH_SIZE ≤ st.batch.length + 1 := Nat.not_le.mpr h
  simp [trainingProcessMessage, hn]

/-- Witness for C10 at a concrete empty batch. -/
theorem missing_user_id_defaults_to_one_witness :
    trainingProcessMessage ⟨[], [], []⟩ (WireMsg.ok ⟨some 5, none, none⟩)
        "2024-01-01" ⟨"2024-01-01", 3⟩
      = (⟨[⟨5, 1, ⟨"2024-01-01", 3⟩⟩], [], []⟩, AckAction.ack, []) :=
  missing_user_id_defaults_to_one ⟨[], [], []⟩ 5 none "2024-01-01" ⟨"2024-01-01", 3⟩ (by decide)

/-- C6: no call of the trainer ever transitions any TrainingSession row:
the `filter_by(user_id=..., status=['pending', 'processing'])` query
compares the string-valued status column against the Python list
`['pending', 'processing']`, which matches no row (and under a real driver
raises inside the swallowed `except`), so `_update_training_session` leaves
the table untouched and `train_from_redis` never moves a run out of
`pending` — refuting the claimed pending → processing → completed/failed
transitions and confirming the code bug. -/
theorem trainer_never_transitions_sessions (buf : Buffer (Pickled TrainSample))
    (sessions : List TrainingSession) (key : String) (now : Timestamp) :
    (trainerProcessKey buf sessions key now).sessions = sessions := by
  unfold trainerProcessKey
  simp only [updateTrainingSession_noop]
  split <;> simp [updateTrainingSession_noop]

/-- C5, counterexample: the batch holds 49 samples that all belong to
identity 1, and the 50th (flush-triggering) message belongs to identity 2.
The flush pushes all 50 samples under the batch key of identity 2 — the
identity of the triggering message — and nothing under the key of the first
sample's identity 1, refuting "determined by the identity of the first
sample in the current batch". -/
theorem flush_key_uses_triggering_message_identity :
    (exFlushState.batch.map (fun s => s.user_id)).head? = some 1
    ∧ Buffer.get (trainingProcessMessage exFlushState
        (WireMsg.ok ⟨some 5, some 2, some ⟨"2024-01-01", 0⟩⟩)
        "2024-01-01" ⟨"2024-01-01", 1⟩).1.buf "train_batch:2024-01-01:1" = []
    ∧ (Buffer.get (trainingProcessMessage exFlushState
        (WireMsg.ok ⟨some 5, some 2, some ⟨"2024-01-01", 0⟩⟩)
        "2024-01-01" ⟨"2024-01-01", 1⟩).1.buf "train_batch:2024-01-01:2").length = 50 := by
  decide

/-- C5, amended: when the in-memory batch reaches `config.BATCH_SIZE`, the
flush performs, in order: push every sample of the batch (including the
triggering one) to the fast-buffer batch key determined by the identity of
the TRIGGERING message (`payload.get('user_id', 1)` of the message that
filled the batch), then create exactly one TrainingSession row with status
`pending` and `frames_count` equal to the batch size, then clear the
in-memory batch; the message is acknowledged afterwards. -/
theorem batch_flush_order_and_key (st : TWState) (f : Face) (pu : Option Int)
    (pt : Option Timestamp) (today : String) (now : Timestamp)
    (hfull : Config.BATCH_SIZE ≤ st.batch.length + 1) :
    (let sample : TrainSample := ⟨f, pu.getD 1, pt.getD now⟩
     let key := trainBatchKeyFor today (pu.getD 1)
     let run : TrainingSession :=
       ⟨st.sessions.length + 1, pu.getD 1, (st.batch ++ [sample]).length, now, none, "pending"⟩
     trainingProcessMessage st (WireMsg.ok ⟨some f, pu, pt⟩) today now
       = (⟨[],
           (st.batch ++ [sample]).foldl
             (fun b s => Buffer.rpush b key (Pickled.good s)) st.buf,
           st.sessions ++ [run]⟩,
          AckAction.ack,
          (st.batch ++ [sample]).map (TWOp.pushSample key)
            ++ [TWOp.createRun run, TWOp.clearBatch])) := by
  have hne : ¬ (st.batch ++ [(⟨f, pu.getD 1, pt.getD now⟩ : TrainSample)]) = [] := by simp
  simp [trainingProcessMessage, pushBatchToRedis, hfull, hne]

/-- Witness for C5 at a concrete full batch for identity 3. -/
theorem batch_flush_order_and_key_witness :
    (let sample : TrainSample := ⟨6, 3, ⟨"2024-02-02", 9⟩⟩
     let key := trainBatchKeyFor "2024-02-02" 3
     let run : TrainingSession :=
       ⟨exFlushState3.sessions.length + 1, 3, (exFlushState3.batch ++ [sample]).length,
        ⟨"2024-02-02", 9⟩, none, "pending"⟩
     trainingProcessMessage exFlushState3 (WireMsg.ok ⟨some 6, some 3, none⟩)
         "2024-02-02" ⟨"2024-02-02", 9⟩
       = (⟨[],
           (exFlushState3.batch ++ [sample]).foldl
             (fun b s => Buffer.rpush b key (Pickled.good s)) exFlushState3.buf,
           exFlushState3.sessions ++ [run]⟩,
          AckAction.ack,
          (exFlushState3.batch ++ [sample]).map (TWOp.pushSample key)
            ++ [TWOp.createRun run, TWOp.clearBatch])) :=
  batch_flush_order_and_key exFlushState3 6 (some 3) none "2024-02-02" ⟨"2024-02-02", 9⟩
    (by decide)

/-- C7, counterexample: the first publish call fails on both attempts (the
initial publish and the single reconnect-and-retry); the raised exception is
caught by `camera_worker`'s handler OUTSIDE the frame loop, so the loop
terminates and the second message — whose own publish would have succeeded
first try — is never published. The failure is therefore fatal to the whole
capture loop, not "only for that publish attempt". -/
theorem double_publish_failure_stops_camera_worker :
    cameraWorker ["face-msg-1", "face-msg-2"] exPubSched = []
    ∧ publishMessage (exPubSched 1).1 (exPubSched 1).2 = Except.ok 1 :=
  ⟨rfl, rfl⟩

/-- C7, amended: on a publish failure the producer reconnects exactly once
and retries that single message (never more than 2 attempts and 1 reconnect
per message, and the publish raises exactly when both attempts fail); a
second failure raises out of `_publish_message` and terminates that camera
worker's capture loop, so the published output is exactly the prefix of the
payload sequence up to the first doubly-failing publish — the failed message
and every later message from that source are dropped with no further
automatic retry. -/
theorem camera_worker_publish_retry_semantics (payloads : List String)
    (sched : Nat → Bool × Bool) :
    cameraWorker payloads sched = payloads.take (publishedCut sched 0 payloads.length)
    ∧ ∀ ff rf : Bool,
        publishAttemptCount ff ≤ 2 ∧ publishReconnectCount ff ≤ 1
        ∧ (publishMessage ff rf = Except.error () ↔ ff = true ∧ rf = true) := by
  refine ⟨cameraWorkerGo_take sched payloads 0, ?_⟩
  intro ff rf
  cases ff <;> cases rf <;> exact ⟨by decide, by decide, by simp [publishMessage]⟩

/-- C4: with the stale key `attendance:2020-01-01:cam1` empty at the time of
the `llen` check, a concurrent RPUSH lands between the check and the
`delete` call; the delete still fires (its guard uses the previously read
length) and removes the key while its list is non-empty, losing the appended
record — the interleaving the claim rules out. The spec's retention-safety
property is the stated intent (and the code comments "only delete if it's
been synced"), so this is a bug in the non-atomic check-then-delete. -/
theorem cleanup_interleaved_append_loses_records :
    (cleanupRun 20240101 "attendance:2020-01-01:cam1"
        [CleanupAct.checkLen, CleanupAct.append (Pickled.good exStaleRec),
         CleanupAct.doDelete] exStaleBuf).deletedNonEmpty = true
    ∧ Buffer.get (cleanupRun 20240101 "attendance:2020-01-01:cam1"
        [CleanupAct.checkLen, CleanupAct.append (Pickled.good exStaleRec),
         CleanupAct.doDelete] exStaleBuf).buf "attendance:2020-01-01:cam1" = [] := by
  decide

/-- C2: within one `_sync_key_to_database` call, the operation trace splits
into a block of destructive pops followed only by the (at most one) durable
bulk insert — every pop of the key precedes any durable write — and,
replaying any prefix of the trace, whenever something has been inserted
this cycle the key's buffer list is already empty, so no record popped by
this cycle is ever simultaneously in the fast buffer and in the durable
store. -/
theorem sync_key_pops_before_any_insert (buf : Buffer (Pickled BufferedRecord))
    (users : List User) (db : List AttendanceRecord) (key : String) :
    (∃ popPart insPart,
        (syncKey buf users db key).trace = popPart ++ insPart
        ∧ (∀ o ∈ popPart, SyncOp.isPop o = true)
        ∧ (∀ o ∈ insPart, SyncOp.isInsert o = true))
    ∧ ∀ n : Nat,
        (execOps ⟨buf, []⟩ ((syncKey buf users db key).trace.take n)).inserted ≠ []
        → Buffer.get (execOps ⟨buf, []⟩ ((syncKey buf users db key).trace.take n)).buf key
            = [] := by
  have hpops : ∀ o ∈ (Buffer.get buf key).map (SyncOp.pop key), SyncOp.isPop o = true := by
    intro o ho
    rcases List.mem_map.mp ho with ⟨e, _, rfl⟩
    rfl
  rcases syncKey_trace_shape buf users db key with h | ⟨rows, h⟩
  · constructor
    · exact ⟨(Buffer.get buf key).map (SyncOp.pop key), [], by simpa using h, hpops, by simp⟩
    · intro n hne
      exfalso
      apply hne
      rw [h]
      exact execOps_allpops_inserted _ _ (fun o ho => hpops o (List.take_subset n _ ho))
  · constructor
    · refine ⟨(Buffer.get buf key).map (SyncOp.pop key), [SyncOp.bulkInsert rows], h, hpops, ?_⟩
      intro o ho
      rcases List.mem_singleton.mp ho with rfl
      rfl
    · intro n hne
      rw [h] at hne ⊢
      rw [List.take_append_eq_append_take] at hne ⊢
      rcases Nat.eq_zero_or_pos (n - ((Buffer.get buf key).map (SyncOp.pop key)).length)
          with hz | hpos
      · exfalso
        apply hne
        rw [hz]
        simp only [List.take_zero, List.append_nil]
        exact execOps_allpops_inserted _ _
          (fun o ho => hpops o (List.take_subset n _ ho))
      · have hn : ((Buffer.get buf key).map (SyncOp.pop key)).length ≤ n := by
          omega
        have htake1 : ((Buffer.get buf key).map (SyncOp.pop key)).take n
            = (Buffer.get buf key).map (SyncOp.pop key) := List.take_of_length_le hn
        have htake2 : [SyncOp.bulkInsert rows].take
              (n - ((Buffer.get buf key).map (SyncOp.pop key)).length)
            = [SyncOp.bulkInsert rows] := by
          apply List.take_of_length_le
          exact hpos
        rw [htake1, htake2, execOps_append]
        show Buffer.get (applySyncOp (execOps ⟨buf, []⟩
          ((Buffer.get buf key).map (SyncOp.pop key))) (SyncOp.bulkInsert rows)).buf key = []
        show Buffer.get (execOps ⟨buf, []⟩
          ((Buffer.get buf key).map (SyncOp.pop key))).buf key = []
        exact execOps_pops_drain key (Buffer.get buf key) ⟨buf, []⟩ rfl

/-- Witness for C2: replaying the full trace (two pops then the bulk
insert) of the example sync leaves the key empty even though rows have been
inserted. -/
theorem sync_key_pops_before_any_insert_witness :
    Buffer.get (execOps ⟨exSyncBuf, []⟩
        ((syncKey exSyncBuf exSyncUsers [] "attendance:2024-01-01:cam1").trace.take 3)).buf
      "attendance:2024-01-01:cam1" = [] :=
  (sync_key_pops_before_any_insert exSyncBuf exSyncUsers [] "attendance:2024-01-01:cam1").2
    3 (by decide)

/-- C3: every row present in the durable store after a full sync pass was
either there before the pass or references an identity that exists in the
users table with `is_active = true`; records referencing inactive or unknown
identities are never inserted, so no event referencing an `active=false`
identity is inserted by the cycle. -/
theorem sync_inserts_only_active_users (buf : Buffer (Pickled BufferedRecord))
    (users : List User) (db : List AttendanceRecord) (e : AttendanceRecord)
    (h : e ∈ (syncAllKeys buf users db).db) :
    e ∈ db ∨ ∃ u, u ∈ users ∧ u.id = e.user_id ∧ u.is_active = true :=
  syncKeys_db_mem users (attendanceKeys buf) buf db e h

/-- Witness for C3: the row synced from the example buffer references the
active identity 7. -/
theorem sync_inserts_only_active_users_witness :
    exActiveRow ∈ ([] : List AttendanceRecord)
    ∨ ∃ u, u ∈ exSyncUsers ∧ u.id = exActiveRow.user_id ∧ u.is_active = true :=
  sync_inserts_only_active_users exActiveBuf exSyncUsers [] exActiveRow (by decide)

/-- C8: running the sync pass a second time on the buffer and database left
by a first pass changes nothing: the second pass inserts no rows, returns
count 0, and performs no primitive operation at all (its trace is empty).
Moreover the sync of any individual key whose list is empty returns the
database unchanged with count 0 and an empty trace — no durable write. -/
theorem sync_second_run_no_durable_writes (buf : Buffer (Pickled BufferedRecord))
    (users : List User) (db : List AttendanceRecord) :
    ((syncAllKeys (syncAllKeys buf users db).buf users (syncAllKeys buf users db).db).db
        = (syncAllKeys buf users db).db
      ∧ (syncAllKeys (syncAllKeys buf users db).buf users (syncAllKeys buf users db).db).count
          = 0
      ∧ (syncAllKeys (syncAllKeys buf users db).buf users (syncAllKeys buf users db).db).trace
          = [])
    ∧ ∀ key, Buffer.get buf key = [] →
        syncKey buf users db key = ⟨Buffer.set buf key [], db, 0, []⟩ := by
  refine ⟨?_, fun key h => syncKey_empty buf users db key h⟩
  exact syncKeys_db_empty users (attendanceKeys (syncAllKeys buf users db).buf)
    (syncAllKeys buf users db).buf (syncAllKeys buf users db).db
    (syncAllKeys_drained buf users db)

/-- Witness for C8: syncing the already-drained example key performs no
durable write. -/
theorem sync_second_run_no_durable_writes_witness :
    syncKey exEmptyKeyBuf exSyncUsers [] "attendance:2024-01-02:cam2"
      = ⟨Buffer.set exEmptyKeyBuf "attendance:2024-01-02:cam2" [], [], 0, []⟩ :=
  (sync_second_run_no_durable_writes exEmptyKeyBuf exSyncUsers []).2
    "attendance:2024-01-02:cam2" (by decide)
